import Mathlib

/-!
Verification of the realtime voice-assistant sources (ai_necklace_realtime.py,
ai_necklace.py) against their natural-language specification.  Python
functions are shallowly embedded as Lean definitions: machine integers are
modelled as Int/Nat, Python floats appearing in time and resampling
arithmetic as exact rationals, fallible code as Except, and the stateful
loops as explicit state-passing step functions over input traces.
-/

namespace RaspiVoice

/- ==================== Audio resampling (resample_audio) ==================== -/

/-- Truncation toward zero of a rational number, the conversion numpy's
astype(np.int16) applies to a float value already inside int16 range. -/
def truncQ (q : ℚ) : ℤ := if 0 ≤ q then ⌊q⌋ else ⌈q⌉

/-- Position of output sample k produced by np.linspace 0 (n-1) L:
for L at least 2 it is k*(n-1)/(L-1); linspace with a single point starts
at 0. -/
def linspacePos (n L k : ℕ) : ℚ :=
  if L ≤ 1 then 0 else (k : ℚ) * ((n : ℚ) - 1) / ((L : ℚ) - 1)

/-- np.interp at position pos over the integer sample grid 0,...,n-1 with
sample values taken from the list: linear interpolation between the two
neighbouring samples, clamping to the last sample at the right edge. -/
def interpAt (samples : List ℤ) (pos : ℚ) : ℚ :=
  let j : ℕ := (⌊pos⌋).toNat
  if j + 1 < samples.length then
    ((samples.getD j 0 : ℤ) : ℚ)
      + (((samples.getD (j+1) 0 : ℤ) : ℚ) - ((samples.getD j 0 : ℤ) : ℚ)) * (pos - (j : ℚ))
  else ((samples.getD j 0 : ℤ) : ℚ)

/-- resample_audio from ai_necklace_realtime.py (lines 239-250): returns the
input unchanged when the rates match, otherwise produces
int(len * to_rate / from_rate) samples (Python int() truncates) by linear
interpolation (np.interp over np.linspace positions) and converts back to
int16.  A frame is the list of its signed 16-bit samples. -/
def resample_audio (frame : List ℤ) (fromRate toRate : ℕ) : List ℤ :=
  if fromRate = toRate then frame
  else
    let n := frame.length
    let targetLength := n * toRate / fromRate
    (List.range targetLength).map (fun k => truncQ (interpAt frame (linspacePos n targetLength k)))

/-- Output length asserted by the spec sentence for C2 (following the
spec's words, for comparison with the code): round(len * toRate / fromRate). -/
def specResampleLen (n fromRate toRate : ℕ) : ℤ :=
  round (((n * toRate : ℕ) : ℚ) / (fromRate : ℚ))

/- ==================== Realtime client (send_audio_chunk) ==================== -/

/-- Messages the client writes to the websocket (outbound protocol envelopes). -/
inductive OutboundMsg where
  | inputAudioAppend (audio : List ℤ)
  | inputAudioCommit
  | responseCreate
  | responseCancel
  | inputAudioClear
  | functionCallOutput (callId output : String)
  | responseCreateInstr (instructions : String)
  deriving DecidableEq, Repr

/-- Connection-relevant state of RealtimeClient: the is_connected flag and
whether self.ws holds a transport handle. -/
structure ClientState where
  is_connected : Bool
  is_responding : Bool
  hasWs : Bool
  deriving DecidableEq, Repr

/-- send_audio_chunk from ai_necklace_realtime.py (lines 1688-1694): returns
immediately when not connected or without a transport handle; otherwise
sends one input_audio_buffer.append envelope, which can raise if the
transport has actually died (modelled by the transportAlive oracle). -/
def send_audio_chunk (st : ClientState) (transportAlive : Bool) (audio : List ℤ) :
    Except String (ClientState × List OutboundMsg) :=
  if !st.is_connected || !st.hasWs then .ok (st, [])
  else if transportAlive then .ok (st, [.inputAudioAppend audio])
  else .error "ConnectionClosed"

/- ==================== Python values and int() parsing ==================== -/

/-- Python values that can occur inside a decoded tool-argument object. -/
inductive PyVal where
  | str (s : String)
  | int (n : ℤ)
  | bool (b : Bool)
  | none
  deriving DecidableEq, Repr

/-- Tool arguments: a decoded JSON object, a finite map from keys to values. -/
def Args := List (String × PyVal)

/-- dict.get key default. -/
def argGetD (args : Args) (key : String) (dflt : PyVal) : PyVal :=
  match args.find? (fun kv => kv.1 = key) with
  | some kv => kv.2
  | Option.none => dflt

/-- dict.get key (returning None when absent). -/
def argGet (args : Args) (key : String) : PyVal := argGetD args key .none

/-- Python str() rendering of a value. -/
def pyToStr : PyVal → String
  | .str s => s
  | .int n => toString n
  | .bool b => if b then "True" else "False"
  | .none => "None"

/-- Python truthiness of a value. -/
def pyTruthy : PyVal → Bool
  | .str s => s ≠ ""
  | .int n => n ≠ 0
  | .bool b => b
  | .none => false

/-- Whitespace stripped by Python int() before parsing. -/
def isPyWhitespace (c : Char) : Bool :=
  c = ' ' || c = '\t' || c = '\n' || c = '\x0d' || c = '\x0b' || c = '\x0c'

/-- Digit-run validity for Python integer literals: nonempty, digits with
single underscores strictly between digits. -/
def validDigitRun : List Char → Bool
  | [] => false
  | [c] => c.isDigit
  | c :: c2 :: rest =>
    c.isDigit && (if c2 = '_' then validDigitRun rest else validDigitRun (c2 :: rest))

/-- Numeric value of a digit run, underscores skipped. -/
def digitRunVal (cs : List Char) : ℕ :=
  cs.foldl (fun acc c => if c = '_' then acc else acc * 10 + (c.toNat - 48)) 0

/-- Python int(s) on a string: strips surrounding whitespace, accepts an
optional sign and a run of decimal digits with underscore separators;
returns Option.none where Python raises ValueError.  (Non-ASCII digits
accepted by CPython are out of scope of the traces considered here.) -/
def pyIntOfString (s : String) : Option ℤ :=
  let cs := (s.toList.dropWhile isPyWhitespace).reverse.dropWhile isPyWhitespace |>.reverse
  match cs with
  | '+' :: rest => if validDigitRun rest then some (digitRunVal rest : ℤ) else Option.none
  | '-' :: rest => if validDigitRun rest then some (-(digitRunVal rest : ℤ)) else Option.none
  | rest => if validDigitRun rest then some (digitRunVal rest : ℤ) else Option.none

/-- str.split with a one-character separator: no merging of adjacent
separators, the empty string yields one empty field. -/
def splitOnChar (sep : Char) : List Char → List (List Char)
  | [] => [[]]
  | c :: rest =>
    match splitOnChar sep rest with
    | [] => [[c]]
    | g :: gs => if c = sep then [] :: g :: gs else (c :: g) :: gs

/-- The statement binding hour and minute to map(int, time_str.split(colon)):
succeeds when the split yields exactly two fields and both parse as Python
integers; every other outcome raises and is caught by the bare except. -/
def parseHM (s : String) : Option (ℤ × ℤ) :=
  match (splitOnChar ':' s.toList).map (fun cs => pyIntOfString (String.mk cs)) with
  | [some h, some m] => some (h, m)
  | _ => Option.none

/- ==================== Alarm store and alarm tools ==================== -/

/-- An alarm record as built by alarm_set: id, time string, label, message,
enabled flag and creation timestamp (the two text fields hold the str()
rendering of the supplied values). -/
structure Alarm where
  id : ℕ
  time : String
  label : String
  message : String
  enabled : Bool
  created_at : String
  deriving DecidableEq, Repr

/-- Mutable globals touched by the tool layer: the alarm collection with its
next-id counter, and the voice-message arm flag. -/
structure AppState where
  alarms : List Alarm
  alarm_next_id : ℕ
  voice_message_mode : Bool
  deriving DecidableEq, Repr

/-- Error string for a malformed time argument. -/
def timeFormatErr : String := "時刻の形式が不正です。HH:MM形式（例: 07:00）で指定してください。"

/-- Error string for an out-of-range time. -/
def timeRangeErr : String := "時刻が不正です。00:00〜23:59の形式で指定してください。"

/-- alarm_set_func from ai_necklace_realtime.py (lines 900-924), identical to
alarm_set in ai_necklace.py (lines 368-393).  Returns the updated state, the
result string, and whether save_alarms was invoked (persistence).  A
non-string time argument makes time_str.split raise, caught by the bare
except like a parse failure. -/
def alarm_set_func (st : AppState) (time_arg label message : PyVal) (now : String) :
    AppState × String × Bool :=
  match time_arg with
  | .str time_str =>
    match parseHM time_str with
    | some (h, m) =>
      if 0 ≤ h ∧ h ≤ 23 ∧ 0 ≤ m ∧ m ≤ 59 then
        let msg := if pyTruthy message then pyToStr message else pyToStr label ++ "の時間です"
        let alarm : Alarm :=
          ⟨st.alarm_next_id, time_str, pyToStr label, msg, true, now⟩
        ({ st with alarms := st.alarms ++ [alarm], alarm_next_id := st.alarm_next_id + 1 },
         time_str ++ "に「" ++ pyToStr label ++ "」のアラームを設定しました。", true)
      else (st, timeRangeErr, false)
    | Option.none => (st, timeFormatErr, false)
  | _ => (st, timeFormatErr, false)

/-- alarm_list_func from ai_necklace_realtime.py (lines 927-939). -/
def alarm_list_func (st : AppState) : String :=
  if st.alarms = [] then "設定されているアラームはありません。"
  else
    ((st.alarms.foldl
        (fun acc a =>
          acc ++ toString a.id ++ ". " ++ a.time ++ " - " ++ a.label
            ++ " (" ++ (if a.enabled then "有効" else "無効") ++ ")\n")
        "アラーム一覧:\n").trimRight)

/-- alarm_delete_func from ai_necklace_realtime.py (lines 942-957): parses the
id, removes the first alarm carrying it, persists, and reports. -/
def alarm_delete_func (st : AppState) (alarm_id : PyVal) : AppState × String × Bool :=
  let parsed : Option ℤ :=
    match alarm_id with
    | .str s => pyIntOfString s
    | .int n => some n
    | .bool b => some (if b then 1 else 0)
    | .none => Option.none
  match parsed with
  | Option.none => (st, "アラームIDは数字で指定してください。", false)
  | some n =>
    match st.alarms.find? (fun a => (a.id : ℤ) = n) with
    | some a =>
      ({ st with alarms := st.alarms.eraseP (fun b => (b.id : ℤ) = n) },
       "「" ++ a.label ++ "」(" ++ a.time ++ ")のアラームを削除しました。", true)
    | Option.none => (st, "ID " ++ toString n ++ " のアラームが見つかりません。", false)

/- ==================== Tool dispatcher (execute_tool) ==================== -/

/-- External collaborators reached by the dispatcher (Gmail, camera,
phone-message relay, lifelog): opaque implementations supplied as an
environment; each receives the raw argument object and the shared state and
may raise. -/
structure ToolEnv where
  gmail_list : Args → AppState → Except String (AppState × String)
  gmail_read : Args → AppState → Except String (AppState × String)
  gmail_send : Args → AppState → Except String (AppState × String)
  gmail_reply : Args → AppState → Except String (AppState × String)
  camera_capture : Args → AppState → Except String (AppState × String)
  gmail_send_photo : Args → AppState → Except String (AppState × String)
  voice_send : Args → AppState → Except String (AppState × String)
  voice_send_photo : Args → AppState → Except String (AppState × String)
  lifelog_start : Args → AppState → Except String (AppState × String)
  lifelog_stop : Args → AppState → Except String (AppState × String)
  lifelog_status : Args → AppState → Except String (AppState × String)

/-- The tool names the dispatcher of ai_necklace_realtime.py recognises. -/
def knownToolNames : List String :=
  ["gmail_list", "gmail_read", "gmail_send", "gmail_reply", "alarm_set",
   "alarm_list", "alarm_delete", "camera_capture", "gmail_send_photo",
   "voice_send", "voice_send_photo", "lifelog_start", "lifelog_stop",
   "lifelog_status"]

/-- execute_tool from ai_necklace_realtime.py (lines 1284-1336): the
if/elif dispatch over the tool name; the alarm tools run the embedded
definitions above, the remaining branches call their external collaborator;
the final else returns the unknown-tool report (the Japanese string
means exactly unknown tool). -/
def execute_tool (env : ToolEnv) (now : String) (st : AppState)
    (tool_name : String) (args : Args) : Except String (AppState × String) :=
  if tool_name = "gmail_list" then env.gmail_list args st
  else if tool_name = "gmail_read" then env.gmail_read args st
  else if tool_name = "gmail_send" then env.gmail_send args st
  else if tool_name = "gmail_reply" then env.gmail_reply args st
  else if tool_name = "alarm_set" then
    let r := alarm_set_func st (argGet args "time")
      (argGetD args "label" (.str "アラーム")) (argGetD args "message" (.str "")) now
    .ok (r.1, r.2.1)
  else if tool_name = "alarm_list" then .ok (st, alarm_list_func st)
  else if tool_name = "alarm_delete" then
    let r := alarm_delete_func st (argGet args "alarm_id")
    .ok (r.1, r.2.1)
  else if tool_name = "camera_capture" then env.camera_capture args st
  else if tool_name = "gmail_send_photo" then env.gmail_send_photo args st
  else if tool_name = "voice_send" then env.voice_send args st
  else if tool_name = "voice_send_photo" then env.voice_send_photo args st
  else if tool_name = "lifelog_start" then env.lifelog_start args st
  else if tool_name = "lifelog_stop" then env.lifelog_stop args st
  else if tool_name = "lifelog_status" then env.lifelog_status args st
  else .ok (st, "不明なツール: " ++ tool_name)

/-- A trivial environment for concrete instantiations. -/
def envDummy : ToolEnv :=
  ⟨fun _ st => .ok (st, ""), fun _ st => .ok (st, ""), fun _ st => .ok (st, ""),
   fun _ st => .ok (st, ""), fun _ st => .ok (st, ""), fun _ st => .ok (st, ""),
   fun _ st => .ok (st, ""), fun _ st => .ok (st, ""), fun _ st => .ok (st, ""),
   fun _ st => .ok (st, ""), fun _ st => .ok (st, "")⟩

/-- The validation alarm_set_func actually performs on its time argument:
a string splitting on the colon into exactly two Python-integer fields
whose values lie in 0..23 and 0..59. -/
def alarmTimeAccepted (v : PyVal) : Bool :=
  match v with
  | .str s =>
    match parseHM s with
    | some (h, m) => decide (0 ≤ h ∧ h ≤ 23 ∧ 0 ≤ m ∧ m ≤ 59)
    | Option.none => false
  | _ => false

/-- Value of a plain nonempty digit field. -/
def digitsToNat? (cs : List Char) : Option ℕ :=
  if cs ≠ [] ∧ cs.all Char.isDigit then
    some (cs.foldl (fun a c => a * 10 + (c.toNat - 48)) 0)
  else Option.none

/-- Time-string shape asserted by claim C8, following the claim's words:
digit fields HH and MM separated by one colon, with 0 ≤ HH ≤ 23 and
0 ≤ MM ≤ 59. -/
def specWellFormedHHMM (s : String) : Bool :=
  match splitOnChar ':' s.toList with
  | [hs, ms] =>
    match digitsToNat? hs, digitsToNat? ms with
    | some h, some m => h ≤ 23 && m ≤ 59
    | _, _ => false
  | _ => false

/- ==================== Alarm notifier (check_alarms_and_notify) ==================== -/

/-- Per-alarm per-minute trigger key.  The code keys its last_triggered dict
with the string built from the id, an underscore and the minute stamp; the
two components determine that string and conversely, so the key is modelled
as the pair. -/
structure TriggerKey where
  id : ℕ
  minute : String
  deriving DecidableEq, Repr

/-- State carried across scans of the realtime alarm notifier: the shared
alarm collection and the trigger-key map. -/
structure AlarmScanState where
  alarms : List Alarm
  lastTriggered : List TriggerKey
  deriving DecidableEq, Repr

/-- The for-loop body of check_alarms_and_notify over the alarm list
(ai_necklace_realtime.py lines 978-1008): skip disabled alarms, skip keys
already triggered, and on a minute match record the key and collect the id
in the delete list (the notification for it is sent at that point).
Returns the extended trigger map and the fired ids in list order. -/
def scanFold (T : String) : List Alarm → List TriggerKey → List TriggerKey × List ℕ
  | [], trig => (trig, [])
  | a :: rest, trig =>
    if a.enabled = false then scanFold T rest trig
    else if (⟨a.id, T⟩ : TriggerKey) ∈ trig then scanFold T rest trig
    else if a.time = T then
      ((scanFold T rest ((⟨a.id, T⟩ : TriggerKey) :: trig)).1,
       a.id :: (scanFold T rest ((⟨a.id, T⟩ : TriggerKey) :: trig)).2)
    else scanFold T rest trig

/-- One iteration of the while-loop of check_alarms_and_notify
(ai_necklace_realtime.py lines 971-1020): scan the alarms at the current
minute, delete every fired alarm, purge trigger keys of other minutes.
Returns the new state, the fired ids, and the ids announced over the
session (the send happens only while the client is connected). -/
def check_alarms_scan (T : String) (connected : Bool) (st : AlarmScanState) :
    AlarmScanState × List ℕ × List ℕ :=
  let r := scanFold T st.alarms st.lastTriggered
  let fired := r.2
  let alarms2 := st.alarms.filter (fun a => decide (a.id ∉ fired))
  let trig2 := r.1.filter (fun k => k.minute = T)
  (⟨alarms2, trig2⟩, fired, if connected then fired else [])

/-- A sequence of notifier iterations, one per listed minute stamp,
accumulating the announced ids in order. -/
def runScans (connected : Bool) : List String → AlarmScanState → AlarmScanState × List ℕ
  | [], st => (st, [])
  | T :: Ts, st =>
    let r := check_alarms_scan T connected st
    let rest := runScans connected Ts r.1
    (rest.1, r.2.2 ++ rest.2)

/- ==================== Voice-message side channel ==================== -/

/-- Observable actions of the audio-input loop and the voice-message side
channel, in program order. -/
inductive LoopOp where
  | cancelResponse
  | clearBuffer
  | openCapture
  | appendAudio
  | stopCapture
  | commit
  | sideRecord
  | transcribeClip
  | relaySend
  | notifyResult (success : Bool)
  deriving DecidableEq, Repr

/-- CONFIG input_sample_rate. -/
def inputSampleRate : ℕ := 44100

/-- CONFIG chunk_size. -/
def chunkSize : ℕ := 1024

/-- The chunk cap int(44100 / 1024 * 60) of record_voice_message_sync; the
float product is exact, so integer truncated division agrees with it. -/
def maxChunks : ℕ := inputSampleRate * 60 / chunkSize

/-- What one iteration of the recording loop observes: the global stop flag,
the wall clock, the button level, how many samples the device holds, the
data a read would return, and whether the read raises. -/
structure RecTick where
  running : Bool
  now : ℚ
  pressed : Bool
  available : ℕ
  chunk : List ℤ
  readFails : Bool

/-- The while-loop of record_voice_message_sync (ai_necklace_realtime.py
lines 769-797): per iteration it checks, in order, the stop flag, the
60-second timeout, button release, the chunk cap, then reads one chunk
when at least chunk_size samples are available (otherwise it sleeps 1 ms).
Consumes one observation per iteration; the boolean of the result records
whether the loop exited by one of its break conditions (true) or merely
exhausted the supplied observations (false). -/
def recordLoop (start : ℚ) (buttonPresent : Bool) :
    List RecTick → List (List ℤ) → List (List ℤ) × Bool
  | [], frames => (frames, false)
  | t :: rest, frames =>
    if t.running = false then (frames, true)
    else if 60 < t.now - start then (frames, true)
    else if buttonPresent ∧ t.pressed = false then (frames, true)
    else if maxChunks ≤ frames.length then (frames, true)
    else if chunkSize ≤ t.available then
      if t.readFails then (frames, true)
      else recordLoop start buttonPresent rest (frames ++ [t.chunk])
    else recordLoop start buttonPresent rest frames

/-- record_voice_message_sync (ai_necklace_realtime.py lines 730-822):
None when the audio handler is missing or the input stream fails to open;
otherwise the loop runs and a clip of fewer than 5 chunks is rejected
(recording too short), so no short clip ever reaches the caller. -/
def record_voice_message_sync (handlerOk streamOpens : Bool) (start : ℚ)
    (buttonPresent : Bool) (trace : List RecTick) : Option (List (List ℤ)) :=
  if handlerOk = false then Option.none
  else if streamOpens = false then Option.none
  else
    let frames := (recordLoop start buttonPresent trace []).1
    if frames.length < 5 then Option.none
    else some frames

/-- Outcomes of the side-channel collaborators: the Whisper transcription
(None on failure, which is tolerated) and whether the Firebase send
succeeds. -/
structure SideEnv where
  transcript : Option String
  firebaseOk : Bool

/-- send_recorded_voice_message (ai_necklace_realtime.py lines 825-868):
clears voice_message_mode immediately on entry, in every outcome; reports
failure without transcription or relay send when recording yielded nothing;
otherwise transcribes the clip (best effort) and forwards it to the
phone-message relay.  Returns the success flag, the arm-flag value after
the call, and the emitted actions in order. -/
def send_recorded_voice_message (env : SideEnv) (rec : Option (List (List ℤ))) :
    Bool × Bool × List LoopOp :=
  match rec with
  | Option.none => (false, false, [.sideRecord])
  | some _ => (env.firebaseOk, false, [.sideRecord, .transcribeClip, .relaySend])

/- ==================== Push-to-talk input loop ==================== -/

/-- Environment of one iteration of audio_input_loop: whether
start_input_stream succeeds, the side-channel collaborators, the clip the
side channel would record, and the chunk read_audio_chunk returns. -/
structure StepEnv where
  startOk : Bool
  side : SideEnv
  sideRec : Option (List (List ℤ))
  chunk : Option (List ℤ)

/-- The globals audio_input_loop mutates: the recording flag and the
voice-message arm flag. -/
structure InputLoopState where
  is_recording : Bool
  voice_message_mode : Bool
  deriving DecidableEq, Repr

/-- The read-and-forward tail of a pressed iteration: read_audio_chunk and,
when a chunk arrived, send_audio_chunk, which appends over the session only
while connected with a live handle. -/
def readSendOps (cl : ClientState) (env : StepEnv) : List LoopOp :=
  match env.chunk with
  | some _ => if cl.is_connected ∧ cl.hasWs then [.appendAudio] else []
  | Option.none => []

/-- One iteration of audio_input_loop (ai_necklace_realtime.py lines
1827-1873) with the button configured.  A press edge while armed runs the
side channel on the worker and reports the outcome; a press edge otherwise
cancels the in-flight response (cancel_response sends only while responding
with a live handle), clears the remote input buffer (clear_input_buffer
sends only with a live handle), then opens local capture; while pressed and
recording the chunk read this iteration is forwarded; a release edge stops
capture and commits. -/
def audioInputStep (st : InputLoopState) (cl : ClientState) (pressed : Bool)
    (env : StepEnv) : InputLoopState × List LoopOp :=
  if pressed then
    if st.is_recording = false then
      if st.voice_message_mode then
        let r := send_recorded_voice_message env.side env.sideRec
        (⟨false, r.2.1⟩, r.2.2 ++ [.notifyResult r.1])
      else
        let ops := (if cl.is_responding then
              (if cl.is_responding ∧ cl.hasWs then [LoopOp.cancelResponse] else [])
            else [])
          ++ (if cl.hasWs then [LoopOp.clearBuffer] else [])
          ++ [LoopOp.openCapture]
        if env.startOk then
          (⟨true, st.voice_message_mode⟩, ops ++ readSendOps cl env)
        else (st, ops)
    else (st, readSendOps cl env)
  else
    if st.is_recording then (⟨false, st.voice_message_mode⟩, [.stopCapture, .commit])
    else (st, [])

/- ==================== Realtime event dispatch ==================== -/

/-- Inbound protocol events consumed by handle_event. -/
inductive InEvent where
  | sessionCreated
  | sessionUpdated
  | responseCreated
  | audioDelta (audio : List ℤ)
  | transcriptDelta (text : String)
  | transcriptDone
  | functionCallDone (callId name arguments : String)
  | responseDone
  | inputTranscriptDone (transcript : String)
  | errorEvent (message : String)
  deriving DecidableEq, Repr

/-- Observable actions of the receive loop, in the order handle_event
performs them. -/
inductive DispatchAct where
  | playAudio (audio : List ℤ)
  | printText (text : String)
  | toolStart (name : String) (onWorker : Bool)
  | toolFinish (name : String)
  | submitToolResult (callId : String)
  | setResponding (b : Bool)
  | logError (message : String)
  deriving DecidableEq, Repr

/-- The tool names handle_event sends to the thread-pool executor. -/
def slowTools : List String := ["voice_send_photo", "camera_capture", "gmail_send_photo"]

/-- handle_event (ai_necklace_realtime.py lines 1759-1815): the actions one
event performs before the handler returns.  For a completed function call
the coroutine awaits the executor result, so the tool starts, finishes and
has its result submitted inside the handler (onWorker records whether the
thread pool ran it); an audio delta is decoded and played immediately
unless empty. -/
def handle_event : InEvent → List DispatchAct
  | .sessionCreated => []
  | .sessionUpdated => []
  | .responseCreated => [.setResponding true]
  | .audioDelta audio => if audio = [] then [] else [.playAudio audio]
  | .transcriptDelta text => if text = "" then [] else [.printText text]
  | .transcriptDone => []
  | .functionCallDone callId name _ =>
    [.toolStart name (decide (name ∈ slowTools)), .toolFinish name, .submitToolResult callId]
  | .responseDone => [.setResponding false]
  | .inputTranscriptDone transcript => if transcript = "" then [] else [.printText transcript]
  | .errorEvent message => [.logError message]

/-- The async-for of receive_messages (ai_necklace_realtime.py lines
1742-1757) while the stop flag stays unset: each inbound event is handled
to completion, in arrival order, before the next one is dispatched. -/
def processEvents : List InEvent → List DispatchAct
  | [] => []
  | e :: rest => handle_event e ++ processEvents rest

/- ======================================================================
   Theorems
   ====================================================================== -/

/- -------------------- C2: resampling -------------------- -/

/-- Claim C2, amended: resampling with equal rates is the identity; with
distinct rates the output holds int(len*toRate/fromRate) samples — the
Python int() truncation, not the round the claim states — each sample the
int16-truncated linear interpolation of the input frame at its linspace
position. -/
theorem resample_audio_correct (frame : List ℤ) (fromRate toRate : ℕ) :
    (fromRate = toRate → resample_audio frame fromRate toRate = frame) ∧
    (fromRate ≠ toRate →
      (resample_audio frame fromRate toRate).length = frame.length * toRate / fromRate ∧
      ∀ k, k < frame.length * toRate / fromRate →
        (resample_audio frame fromRate toRate)[k]? =
          some (truncQ (interpAt frame
            (linspacePos frame.length (frame.length * toRate / fromRate) k)))) := by
  constructor
  · intro h; simp [resample_audio, h]
  · intro h
    constructor
    · simp [resample_audio, h]
    · intro k hk
      simp [resample_audio, h, List.getElem?_map, List.getElem?_range, hk]

/-- Claim C2 fails as stated: a one-sample frame resampled from rate 3 to
rate 2 yields 0 samples where the claimed round(1*2/3) is 1. -/
theorem resample_len_claim_counterexample :
    ((resample_audio [5] 3 2).length : ℤ) ≠ specResampleLen 1 3 2 := by
  norm_num [resample_audio, specResampleLen, round_eq]

/-- Witness for the amended C2 at a concrete frame and concrete rate pairs. -/
theorem resample_audio_correct_witness :
    resample_audio [1, 2] 2 2 = [1, 2] ∧ (resample_audio [1, 2] 2 3).length = 3 := by
  refine ⟨(resample_audio_correct [1, 2] 2 2).1 rfl, ?_⟩
  have h := ((resample_audio_correct [1, 2] 2 3).2 (by decide)).1
  simpa using h

/- -------------------- C6: send while disconnected -------------------- -/

/-- Claim C6: sending an audio frame while the session is disconnected or
without a transport handle is a silent no-op: send_audio_chunk returns
normally (never raises), emits nothing, and leaves the client state
unchanged, whatever the condition of the underlying transport. -/
theorem send_audio_chunk_noop_when_disconnected
    (st : ClientState) (transportAlive : Bool) (audio : List ℤ)
    (h : st.is_connected = false ∨ st.hasWs = false) :
    send_audio_chunk st transportAlive audio = .ok (st, []) := by
  rcases h with h | h <;> simp [send_audio_chunk, h]

/-- Witness for C6 at a concrete disconnected state and dead transport. -/
theorem send_audio_chunk_noop_witness :
    send_audio_chunk ⟨false, true, true⟩ false [1, 2] = .ok (⟨false, true, true⟩, []) :=
  send_audio_chunk_noop_when_disconnected ⟨false, true, true⟩ false [1, 2] (Or.inl rfl)

/- -------------------- C7: unknown tool name -------------------- -/

/-- Claim C7: for every tool name outside the dispatcher's known set,
execute_tool returns normally (never raises) with the unknown-tool report
naming the tool — the Japanese string, literally unknown tool colon name —
and leaves the state untouched. -/
theorem execute_tool_unknown (env : ToolEnv) (now : String) (st : AppState)
    (tool_name : String) (args : Args) (h : tool_name ∉ knownToolNames) :
    execute_tool env now st tool_name args = .ok (st, "不明なツール: " ++ tool_name) := by
  simp [knownToolNames] at h
  obtain ⟨h1, h2, h3, h4, h5, h6, h7, h8, h9, h10, h11, h12, h13, h14⟩ := h
  simp [execute_tool, h1, h2, h3, h4, h5, h6, h7, h8, h9, h10, h11, h12, h13, h14]

/-- Witness for C7 at the tool name foo. -/
theorem execute_tool_unknown_witness :
    execute_tool envDummy "t" ⟨[], 1, false⟩ "foo" [] =
      .ok (⟨[], 1, false⟩, "不明なツール: foo") :=
  execute_tool_unknown envDummy "t" ⟨[], 1, false⟩ "foo" [] (by decide)

/- -------------------- C8: alarm_set validation -------------------- -/

/-- Claim C8, amended: for every time argument the code's validation rejects
(not a string splitting on one colon into exactly two Python-integer fields
with hour in 0..23 and minute in 0..59), alarm_set_func returns one of its
two descriptive error strings, never raises, leaves the alarm collection
and next-id counter unchanged and persists nothing. -/
theorem alarm_set_rejects_invalid (st : AppState) (v label message : PyVal) (now : String)
    (h : alarmTimeAccepted v = false) :
    (alarm_set_func st v label message now).1 = st ∧
    (alarm_set_func st v label message now).2.2 = false ∧
    ((alarm_set_func st v label message now).2.1 = timeFormatErr ∨
     (alarm_set_func st v label message now).2.1 = timeRangeErr) := by
  cases v with
  | str s =>
    rcases hp : parseHM s with _ | ⟨hh, mm⟩
    · simp [alarm_set_func, hp]
    · have : ¬ (0 ≤ hh ∧ hh ≤ 23 ∧ 0 ≤ mm ∧ mm ≤ 59) := by
        have := h
        simp [alarmTimeAccepted, hp] at this
        intro hcon
        exact absurd hcon (by simpa using this)
      simp [alarm_set_func, hp, this]
  | int n => simp [alarm_set_func]
  | bool b => simp [alarm_set_func]
  | none => simp [alarm_set_func]

/-- Witness for the amended C8 at the out-of-range time 99:99. -/
theorem alarm_set_rejects_witness :
    (alarm_set_func ⟨[], 1, false⟩ (.str "99:99") (.str "x") (.str "") "t0").1 =
      (⟨[], 1, false⟩ : AppState) ∧
    (alarm_set_func ⟨[], 1, false⟩ (.str "99:99") (.str "x") (.str "") "t0").2.2 = false ∧
    ((alarm_set_func ⟨[], 1, false⟩ (.str "99:99") (.str "x") (.str "") "t0").2.1 =
        timeFormatErr ∨
     (alarm_set_func ⟨[], 1, false⟩ (.str "99:99") (.str "x") (.str "") "t0").2.1 =
        timeRangeErr) :=
  alarm_set_rejects_invalid ⟨[], 1, false⟩ (.str "99:99") (.str "x") (.str "") "t0"
    (by decide)

/-- Claim C8 fails as stated: the string plus-7:30 is not of the claimed
HH:MM digit form, yet alarm_set_func accepts it — Python int() parses the
signed field — adds an alarm and persists the store instead of returning an
error. -/
theorem alarm_set_claim_counterexample :
    specWellFormedHHMM "+7:30" = false ∧
    (alarm_set_func ⟨[], 1, false⟩ (.str "+7:30") (.str "アラーム") (.str "") "t0").1 ≠
      (⟨[], 1, false⟩ : AppState) ∧
    (alarm_set_func ⟨[], 1, false⟩ (.str "+7:30") (.str "アラーム") (.str "") "t0").2.2 =
      true := by
  refine ⟨by decide, by decide, by decide⟩

/- -------------------- C1: slow-tool dispatch -------------------- -/

/-- Event processing distributes over concatenation of the inbound stream:
the receive loop is strictly sequential. -/
theorem processEvents_append (l1 l2 : List InEvent) :
    processEvents (l1 ++ l2) = processEvents l1 ++ processEvents l2 := by
  induction l1 with
  | nil => rfl
  | cons e rest ih => simp [processEvents, ih]

/-- Claim C1, amended: a slow tool is offloaded to the worker pool (the
onWorker flag of its start action is true), but handle_event awaits its
completion, so the actions of every event that arrives after the tool-call
event — audio-delta playback included — occur only after the tool has
finished and its result has been submitted. -/
theorem slow_tool_dispatch_sequential (pre post : List InEvent)
    (callId name args : String) (h : name ∈ slowTools) :
    processEvents (pre ++ .functionCallDone callId name args :: post) =
      processEvents pre
        ++ [.toolStart name true, .toolFinish name, .submitToolResult callId]
        ++ processEvents post := by
  rw [processEvents_append]
  simp [processEvents, handle_event, h]

/-- Witness for the amended C1 at a concrete event stream around a
camera_capture call. -/
theorem slow_tool_dispatch_witness :
    processEvents [.responseCreated,
        .functionCallDone "c1" "camera_capture" "", .audioDelta [2]] =
      [.setResponding true, .toolStart "camera_capture" true,
       .toolFinish "camera_capture", .submitToolResult "c1", .playAudio [2]] := by
  have h := slow_tool_dispatch_sequential [InEvent.responseCreated] [InEvent.audioDelta [2]]
    "c1" "camera_capture" "" (by decide)
  simpa [processEvents, handle_event] using h

/-- Claim C1 fails as stated: an audio delta arriving while camera_capture
runs is absent from the first three dispatched actions — the tool start,
the tool finish and the result submission all precede its playback, so the
delta is not played before the tool completes. -/
theorem slow_tool_claim_counterexample :
    processEvents [.functionCallDone "c1" "camera_capture" "", .audioDelta [1]] =
      [.toolStart "camera_capture" true, .toolFinish "camera_capture",
       .submitToolResult "c1", .playAudio [1]] ∧
    DispatchAct.playAudio [1] ∉
      (processEvents [.functionCallDone "c1" "camera_capture" "",
        .audioDelta [1]]).take 3 := by
  refine ⟨by decide, by decide⟩

/- -------------------- C3: barge-in ordering -------------------- -/

/-- Claim C3, amended: on a press edge while a response is streaming, with a
live transport and the side channel not armed, the loop emits exactly
cancel, then clear, then open-capture, followed only by streamed audio
appends of the same iteration. -/
theorem barge_in_ordering (st : InputLoopState) (cl : ClientState) (env : StepEnv)
    (hrec : st.is_recording = false) (harm : st.voice_message_mode = false)
    (hresp : cl.is_responding = true) (hws : cl.hasWs = true) :
    ∃ tail, (audioInputStep st cl true env).2 =
        [LoopOp.cancelResponse, LoopOp.clearBuffer, LoopOp.openCapture] ++ tail ∧
      ∀ op ∈ tail, op = LoopOp.appendAudio := by
  refine ⟨if env.startOk then readSendOps cl env else [], ?_, ?_⟩
  · cases h : env.startOk <;>
      simp [audioInputStep, hrec, harm, hresp, hws, h]
  · intro op hop
    rcases h : env.startOk with _ | _
    · simp [h] at hop
    · simp [h, readSendOps] at hop
      rcases hc : env.chunk with _ | c
      · simp [hc] at hop
      · simp [hc] at hop
        tauto

/-- Witness for the amended C3 at a concrete responding state. -/
theorem barge_in_witness :
    ∃ tail, (audioInputStep ⟨false, false⟩ ⟨true, true, true⟩ true
        ⟨true, ⟨Option.none, false⟩, Option.none, Option.none⟩).2 =
        [LoopOp.cancelResponse, LoopOp.clearBuffer, LoopOp.openCapture] ++ tail ∧
      ∀ op ∈ tail, op = LoopOp.appendAudio :=
  barge_in_ordering ⟨false, false⟩ ⟨true, true, true⟩
    ⟨true, ⟨Option.none, false⟩, Option.none, Option.none⟩ rfl rfl rfl rfl

/-- Claim C3 fails as stated: a press edge while a response is streaming but
with the voice-message mode armed runs the side channel and emits no cancel
at all, so the emitted sequence is not cancel-clear-open. -/
theorem barge_in_claim_counterexample :
    (audioInputStep ⟨false, true⟩ ⟨true, true, true⟩ true
        ⟨true, ⟨Option.none, false⟩, Option.none, Option.none⟩).2 =
      [LoopOp.sideRecord, LoopOp.notifyResult false] ∧
    LoopOp.cancelResponse ∉ (audioInputStep ⟨false, true⟩ ⟨true, true, true⟩ true
        ⟨true, ⟨Option.none, false⟩, Option.none, Option.none⟩).2 := by
  refine ⟨by decide, by decide⟩

/- -------------------- C5: arm flag single-use -------------------- -/

/-- Claim C5: the voice-message arm flag is single-use: an armed press edge
leaves the flag down whatever the capture outcome, and the next press edge
without re-arming never runs the side channel but opens the normal
streaming capture. -/
theorem voice_arm_single_use (st : InputLoopState) (cl cl2 : ClientState)
    (env env2 : StepEnv) (hrec : st.is_recording = false)
    (harm : st.voice_message_mode = true) :
    (audioInputStep st cl true env).1.voice_message_mode = false ∧
    LoopOp.sideRecord ∉
      (audioInputStep (audioInputStep st cl true env).1 cl2 true env2).2 ∧
    LoopOp.openCapture ∈
      (audioInputStep (audioInputStep st cl true env).1 cl2 true env2).2 := by
  have hst : (audioInputStep st cl true env).1 = ⟨false, false⟩ := by
    rcases hr : env.sideRec with _ | r <;>
      simp [audioInputStep, hrec, harm, send_recorded_voice_message, hr]
  refine ⟨by rw [hst], ?_, ?_⟩
  · rw [hst]
    simp only [audioInputStep, readSendOps]
    rcases h2 : env2.startOk with _ | _ <;>
      rcases hc : env2.chunk with _ | c <;>
        split_ifs <;> simp_all
  · rw [hst]
    simp only [audioInputStep, readSendOps]
    rcases h2 : env2.startOk with _ | _ <;>
      rcases hc : env2.chunk with _ | c <;>
        split_ifs <;> simp_all

/-- Witness for C5 at a concrete armed cycle followed by a plain press. -/
theorem voice_arm_single_use_witness :
    (audioInputStep ⟨false, true⟩ ⟨true, true, true⟩ true
        ⟨true, ⟨Option.none, true⟩, some [[0]], Option.none⟩).1.voice_message_mode = false ∧
    LoopOp.sideRecord ∉
      (audioInputStep (audioInputStep ⟨false, true⟩ ⟨true, true, true⟩ true
        ⟨true, ⟨Option.none, true⟩, some [[0]], Option.none⟩).1 ⟨true, false, true⟩ true
        ⟨true, ⟨Option.none, true⟩, Option.none, some [1]⟩).2 ∧
    LoopOp.openCapture ∈
      (audioInputStep (audioInputStep ⟨false, true⟩ ⟨true, true, true⟩ true
        ⟨true, ⟨Option.none, true⟩, some [[0]], Option.none⟩).1 ⟨true, false, true⟩ true
        ⟨true, ⟨Option.none, true⟩, Option.none, some [1]⟩).2 :=
  voice_arm_single_use ⟨false, true⟩ ⟨true, true, true⟩ ⟨true, false, true⟩
    ⟨true, ⟨Option.none, true⟩, some [[0]], Option.none⟩
    ⟨true, ⟨Option.none, true⟩, Option.none, some [1]⟩ rfl rfl

/- -------------------- C9: short clip aborts -------------------- -/

/-- Claim C9: a side-channel capture whose clip is shorter than the 5-chunk
minimum aborts the send: the pipeline reports failure and performs neither
transcription nor a relay send, so no empty clip reaches the phone-message
relay. -/
theorem short_clip_aborts (handlerOk streamOpens : Bool) (start : ℚ)
    (buttonPresent : Bool) (trace : List RecTick) (env : SideEnv)
    (h : ((recordLoop start buttonPresent trace []).1).length < 5) :
    send_recorded_voice_message env
        (record_voice_message_sync handlerOk streamOpens start buttonPresent trace) =
      (false, false, [LoopOp.sideRecord]) ∧
    LoopOp.relaySend ∉ (send_recorded_voice_message env
        (record_voice_message_sync handlerOk streamOpens start buttonPresent trace)).2.2 := by
  have hrec : record_voice_message_sync handlerOk streamOpens start buttonPresent trace
      = Option.none := by
    cases handlerOk <;> cases streamOpens <;>
      simp [record_voice_message_sync, h]
  rw [hrec]
  exact ⟨rfl, by simp [send_recorded_voice_message]⟩

/-- Witness for C9 at an empty capture trace. -/
theorem short_clip_aborts_witness :
    send_recorded_voice_message ⟨Option.none, true⟩
        (record_voice_message_sync true true 0 true []) =
      (false, false, [LoopOp.sideRecord]) ∧
    LoopOp.relaySend ∉ (send_recorded_voice_message ⟨Option.none, true⟩
        (record_voice_message_sync true true 0 true [])).2.2 :=
  short_clip_aborts true true 0 true [] ⟨Option.none, true⟩ (by decide)

/- -------------------- C10: recording is bounded -------------------- -/

/-- Claim C10: the side-channel recording loop is bounded: the cap
int(44100/1024*60) equals 2583 chunks and is never exceeded, and the loop
has stopped by the first iteration whose clock reading exceeds start + 60
seconds, whatever the button does — so the clip holds at most about 60
seconds of audio and the capture terminates once the clock passes the
timeout. -/
theorem record_loop_bounded (start : ℚ) (buttonPresent : Bool)
    (trace : List RecTick) (acc : List (List ℤ)) (hacc : acc.length ≤ maxChunks) :
    maxChunks = 2583 ∧
    (recordLoop start buttonPresent trace acc).1.length ≤ maxChunks ∧
    ((∃ t ∈ trace, 60 < t.now - start) →
      (recordLoop start buttonPresent trace acc).2 = true) := by
  refine ⟨by decide, ?_⟩
  induction trace generalizing acc with
  | nil =>
    refine ⟨by simpa [recordLoop] using hacc, ?_⟩
    rintro ⟨t, ht, -⟩
    simp at ht
  | cons t rest ih =>
    by_cases h1 : t.running = false
    · refine ⟨by simpa [recordLoop, h1] using hacc, fun _ => by simp [recordLoop, h1]⟩
    · by_cases h2 : 60 < t.now - start
      · refine ⟨by simp [recordLoop, h1, h2]; simpa using hacc,
          fun _ => by simp [recordLoop, h1, h2]⟩
      · by_cases h3 : buttonPresent ∧ t.pressed = false
        · refine ⟨by simp [recordLoop, h1, h2, h3]; simpa using hacc,
            fun _ => by simp [recordLoop, h1, h2, h3]⟩
        · by_cases h4 : maxChunks ≤ acc.length
          · refine ⟨by simp [recordLoop, h1, h2, h3, h4]; simpa using hacc,
              fun _ => by simp [recordLoop, h1, h2, h3, h4]⟩
          · by_cases h5 : chunkSize ≤ t.available
            · by_cases h6 : t.readFails = true
              · refine ⟨by simp [recordLoop, h1, h2, h3, h4, h5, h6]; simpa using hacc,
                  fun _ => by simp [recordLoop, h1, h2, h3, h4, h5, h6]⟩
              · have hacc2 : (acc ++ [t.chunk]).length ≤ maxChunks := by
                  simp only [List.length_append, List.length_cons, List.length_nil]
                  omega
                have := ih (acc ++ [t.chunk]) hacc2
                refine ⟨by simpa [recordLoop, h1, h2, h3, h4, h5, h6] using this.1, ?_⟩
                rintro ⟨u, hu, hu2⟩
                rcases List.mem_cons.mp hu with rfl | hu3
                · exact absurd hu2 h2
                · simpa [recordLoop, h1, h2, h3, h4, h5, h6] using this.2 ⟨u, hu3, hu2⟩
            · have := ih acc hacc
              refine ⟨by simpa [recordLoop, h1, h2, h3, h4, h5] using this.1, ?_⟩
              rintro ⟨u, hu, hu2⟩
              rcases List.mem_cons.mp hu with rfl | hu3
              · exact absurd hu2 h2
              · simpa [recordLoop, h1, h2, h3, h4, h5] using this.2 ⟨u, hu3, hu2⟩

/-- Witness for C10 at a one-tick trace whose clock already passed the
timeout. -/
theorem record_loop_bounded_witness :
    maxChunks = 2583 ∧
    (recordLoop 0 true [⟨true, 61, true, 0, [], false⟩] []).1.length ≤ maxChunks ∧
    ((∃ t ∈ [(⟨true, 61, true, 0, [], false⟩ : RecTick)], 60 < t.now - 0) →
      (recordLoop 0 true [⟨true, 61, true, 0, [], false⟩] []).2 = true) :=
  record_loop_bounded 0 true [⟨true, 61, true, 0, [], false⟩] [] (by decide)

/- -------------------- C4: alarm fires exactly once -------------------- -/

/-- An alarm id whose trigger key for the scanned minute is already recorded
is never collected by the scan pass. -/
theorem scanFold_count_zero (T : String) (i : ℕ) (l : List Alarm) :
    ∀ trig, (⟨i, T⟩ : TriggerKey) ∈ trig → (scanFold T l trig).2.count i = 0 := by
  induction l with
  | nil => intro trig _; simp [scanFold]
  | cons a rest ih =>
    intro trig hmem
    by_cases h1 : a.enabled = false
    · simpa [scanFold, h1] using ih trig hmem
    · by_cases h2 : (⟨a.id, T⟩ : TriggerKey) ∈ trig
      · simpa [scanFold, h1, h2] using ih trig hmem
      · by_cases h3 : a.time = T
        · have hne : a.id ≠ i := by
            rintro rfl
            exact h2 hmem
          have h0 := ih ((⟨a.id, T⟩ : TriggerKey) :: trig) (List.mem_cons_of_mem _ hmem)
          simp [scanFold, h1, h2, h3, List.count_cons, h0, hne, Ne.symm hne]
        · simpa [scanFold, h1, h2, h3] using ih trig hmem

/-- An enabled alarm matching the scanned minute, whose key is still free,
is collected exactly once by one scan pass: the first matching entry
records the key and every further entry with the same id is skipped. -/
theorem scanFold_count_one (T : String) (i : ℕ) (l : List Alarm) :
    ∀ trig, (⟨i, T⟩ : TriggerKey) ∉ trig →
      (∃ b ∈ l, b.id = i ∧ b.enabled = true ∧ b.time = T) →
      (scanFold T l trig).2.count i = 1 := by
  induction l with
  | nil =>
    rintro trig _ ⟨b, hb, -⟩
    simp at hb
  | cons a rest ih =>
    rintro trig hfree ⟨b, hb, hbid, hben, hbt⟩
    rcases List.mem_cons.mp hb with rfl | hbrest
    · by_cases h2 : (⟨b.id, T⟩ : TriggerKey) ∈ trig
      · exact absurd (hbid ▸ h2) hfree
      · subst hbid
        have h0 := scanFold_count_zero T b.id rest ((⟨b.id, T⟩ : TriggerKey) :: trig)
          (List.mem_cons_self _ _)
        simp [scanFold, hben, h2, hbt, List.count_cons, h0]
    · by_cases h1 : a.enabled = false
      · simpa [scanFold, h1] using ih trig hfree ⟨b, hbrest, hbid, hben, hbt⟩
      · by_cases h2 : (⟨a.id, T⟩ : TriggerKey) ∈ trig
        · simpa [scanFold, h1, h2] using ih trig hfree ⟨b, hbrest, hbid, hben, hbt⟩
        · by_cases h3 : a.time = T
          · by_cases h4 : a.id = i
            · subst h4
              have h0 := scanFold_count_zero T a.id rest ((⟨a.id, T⟩ : TriggerKey) :: trig)
                (List.mem_cons_self _ _)
              simp [scanFold, h1, h2, h3, List.count_cons, h0]
            · have hfree2 : (⟨i, T⟩ : TriggerKey) ∉ (⟨a.id, T⟩ : TriggerKey) :: trig := by
                intro hc
                rcases List.mem_cons.mp hc with he | hc2
                · exact h4 (by cases he; rfl)
                · exact hfree hc2
              have h0 := ih ((⟨a.id, T⟩ : TriggerKey) :: trig) hfree2
                ⟨b, hbrest, hbid, hben, hbt⟩
              simp [scanFold, h1, h2, h3, List.count_cons, h0, h4, Ne.symm h4]
          · simpa [scanFold, h1, h2, h3] using ih trig hfree ⟨b, hbrest, hbid, hben, hbt⟩

/-- Every id a scan pass collects belongs to some alarm of the scanned
list. -/
theorem scanFold_fired_sub (T : String) (l : List Alarm) :
    ∀ trig i, i ∈ (scanFold T l trig).2 → i ∈ l.map (fun a => a.id) := by
  induction l with
  | nil => intro trig i h; simp [scanFold] at h
  | cons a rest ih =>
    intro trig i h
    by_cases h1 : a.enabled = false
    · simp [scanFold, h1] at h
      exact List.mem_cons_of_mem _ (ih trig i h)
    · by_cases h2 : (⟨a.id, T⟩ : TriggerKey) ∈ trig
      · simp [scanFold, h1, h2] at h
        exact List.mem_cons_of_mem _ (ih trig i h)
      · by_cases h3 : a.time = T
        · simp [scanFold, h1, h2, h3] at h
          rcases h with rfl | h
          · simp
          · exact List.mem_cons_of_mem _ (ih _ i h)
        · simp [scanFold, h1, h2, h3] at h
          exact List.mem_cons_of_mem _ (ih trig i h)

/-- An id absent from the alarm collection is never announced by any later
sequence of scans. -/
theorem runScans_count_zero (c : Bool) (Ts : List String) :
    ∀ st i, i ∉ st.alarms.map (fun a => a.id) → (runScans c Ts st).2.count i = 0 := by
  induction Ts with
  | nil => intro st i _; simp [runScans]
  | cons T Ts ih =>
    intro st i hni
    have hfired : i ∉ (scanFold T st.alarms st.lastTriggered).2 := by
      intro hc
      exact hni (scanFold_fired_sub T st.alarms st.lastTriggered i hc)
    have hzero1 : ((check_alarms_scan T c st).2.2).count i = 0 := by
      cases c <;> simp [check_alarms_scan, List.count_eq_zero, hfired]
    have hni2 : i ∉ ((check_alarms_scan T c st).1).alarms.map (fun a => a.id) := by
      intro hc
      simp only [check_alarms_scan, List.mem_map] at hc
      obtain ⟨b, hbmem, hbid⟩ := hc
      have hb2 := List.mem_filter.mp hbmem
      exact hni (List.mem_map.mpr ⟨b, hb2.1, hbid⟩)
    simp only [runScans, List.count_append]
    rw [hzero1, ih _ i hni2]

/-- Claim C4: an enabled alarm matching the scanned minute, with its trigger
key still free and the client connected, is announced exactly once over a
scan at that minute followed by any further scans — repeated scans within
the same minute included, and scans at the following minute in particular:
the realtime notifier records the per-minute key during the scan and
deletes the fired alarm afterwards, so no rescan can fire it again. -/
theorem alarm_trigger_once (st : AlarmScanState) (a : Alarm) (T : String)
    (Ts : List String) (ha : a ∈ st.alarms) (hen : a.enabled = true)
    (ht : a.time = T) (hkey : (⟨a.id, T⟩ : TriggerKey) ∉ st.lastTriggered) :
    (runScans true (T :: Ts) st).2.count a.id = 1 := by
  have h1 : (scanFold T st.alarms st.lastTriggered).2.count a.id = 1 :=
    scanFold_count_one T a.id st.alarms st.lastTriggered hkey ⟨a, ha, rfl, hen, ht⟩
  have hmemfired : a.id ∈ (scanFold T st.alarms st.lastTriggered).2 := by
    have : 0 < (scanFold T st.alarms st.lastTriggered).2.count a.id := by omega
    exact List.count_pos_iff.mp this
  have hdel : a.id ∉ ((check_alarms_scan T true st).1).alarms.map (fun b => b.id) := by
    intro hc
    simp only [check_alarms_scan, List.mem_map] at hc
    obtain ⟨b, hbmem, hbid⟩ := hc
    have hb2 := List.mem_filter.mp hbmem
    have := of_decide_eq_true hb2.2
    exact this (hbid ▸ hmemfired)
  have h0 : (runScans true Ts (check_alarms_scan T true st).1).2.count a.id = 0 :=
    runScans_count_zero true Ts _ a.id hdel
  simp only [runScans, List.count_append, h0]
  simpa [check_alarms_scan] using h1

/-- Witness for C4: one alarm at 07:00, scanned twice in that minute and
once at 07:01, is announced exactly once. -/
theorem alarm_trigger_once_witness :
    (runScans true ["07:00", "07:00", "07:01"]
        ⟨[⟨1, "07:00", "起床", "m", true, "c"⟩], []⟩).2.count 1 = 1 :=
  alarm_trigger_once ⟨[⟨1, "07:00", "起床", "m", true, "c"⟩], []⟩
    ⟨1, "07:00", "起床", "m", true, "c"⟩ "07:00" ["07:00", "07:01"]
    (by decide) rfl rfl (by decide)

end RaspiVoice
